import Mathlib

/-!
Verification of `unpacker.py`, a fixed-table firmware image splitter/joiner.

The program holds a hardcoded partition table `firmware_parts` and offers two
subcommands:

* `unpack <src>`: for each descriptor, seek to its offset in the source image,
  read up to `size` bytes, and write them to a file named after the descriptor,
  printing the name and byte count.
* `pack <dest>`: for each descriptor after the first, read the whole part file
  of that name, write its bytes to the destination image followed by
  `size - len` zero bytes (Python `b'\x00' * padding`, which is empty when
  `padding` is negative), printing the name, byte count and padding.

The embedding below models file contents as lists of bytes (`List Nat`), the
current working directory as a total map from file names to contents, and the
two subcommand loops as folds over the concrete table, mirroring the source
statement by statement.  CLI dispatch on `sys.argv` is modelled by `dispatch`.
-/

/-- A partition descriptor, as built by the `FirmwarePart.__init__` constructor:
a name (doubling as the part file name), a byte offset into the firmware image
and a size in bytes. -/
structure FirmwarePart where
  name : String
  offset : Nat
  size : Nat

/-- The hardcoded partition table `firmware_parts` of `unpacker.py`. -/
def firmware_parts : List FirmwarePart :=
  [⟨"uimage_kernel", 0x0, 0x11AA97⟩,
   ⟨"squashfs", 0x11AAD7, 5505028 - 0x11AAD7⟩]

/-- File contents: a sequence of bytes. -/
abbrev Bytes := List Nat

/-- `f.seek(offset, 0)` followed by `f.read(size)`: the bytes of `source`
starting at `offset`, at most `size` of them (fewer when the file ends
earlier, as Python's `read` returns). -/
def readAt (source : Bytes) (offset size : Nat) : Bytes :=
  (source.drop offset).take size

/-- Creating/overwriting the file `name` with contents `data` in the directory
state `fs` (Python `open(name, "wb")` followed by a single write). -/
def writeFile (fs : String → Bytes) (name : String) (data : Bytes) :
    String → Bytes :=
  fun n => if n = name then data else fs n

/-- State threaded through the `unpack` loop: the directory contents and the
report lines printed so far (part name and number of bytes written). -/
structure UnpackState where
  fs : String → Bytes
  log : List (String × Nat)

/-- One iteration of the `unpack` loop body for descriptor `part`:
`f.seek(part.offset, 0); data = f.read(part.size)`, write `data` to the file
`part.name`, and print the name and `len(data)`. -/
def unpackStep (source : Bytes) (st : UnpackState) (part : FirmwarePart) :
    UnpackState :=
  let data := readAt source part.offset part.size
  { fs := writeFile st.fs part.name data
    log := st.log ++ [(part.name, data.length)] }

/-- The `unpack` subcommand: iterate `unpackStep` over every descriptor of
`firmware_parts` in table order, starting from the directory state `fs0`. -/
def unpackRun (source : Bytes) (fs0 : String → Bytes) : UnpackState :=
  firmware_parts.foldl (unpackStep source) ⟨fs0, []⟩

/-- Python `b'\x00' * padding` for an `int` padding: `padding.toNat` zero
bytes (the empty string when `padding` is negative). -/
def pythonPad (padding : Int) : Bytes :=
  List.replicate padding.toNat 0

/-- State threaded through the `pack` loop: the bytes written to the
destination image so far and the report lines printed so far (part name,
`len(data)` and the signed `padding`). -/
structure PackState where
  image : Bytes
  log : List (String × Nat × Int)

/-- One iteration of the `pack` loop body for descriptor `part`: read the whole
part file `part.name` from the directory `fs`, append its bytes to the
destination image, compute `padding = part.size - len(data)` (a signed
integer), print the name, byte count and padding, and append
`b'\x00' * padding` zero bytes. -/
def packStep (fs : String → Bytes) (st : PackState) (part : FirmwarePart) :
    PackState :=
  let data := fs part.name
  let padding : Int := (part.size : Int) - (data.length : Int)
  { image := st.image ++ data ++ pythonPad padding
    log := st.log ++ [(part.name, data.length, padding)] }

/-- The `pack` subcommand: iterate `packStep` over `firmware_parts[1:]` — every
descriptor except the first — in table order, building the destination image
from empty (`open(dest, "wb")` truncates). -/
def packRun (fs : String → Bytes) : PackState :=
  (firmware_parts.drop 1).foldl (packStep fs) ⟨[], []⟩

/-- Outcome of the top-level dispatch on `sys.argv`. -/
inductive CliOutcome where
  /-- `sys.argv[1] == "unpack"`: run the unpack loop on the source image at
  `sys.argv[2]`. -/
  | doUnpack (src : String) : CliOutcome
  /-- `sys.argv[1] == "pack"`: run the pack loop writing the image at
  `sys.argv[2]`. -/
  | doPack (dest : String) : CliOutcome
  /-- `sys.argv[1]` is neither `"unpack"` nor `"pack"`: the `if`/`elif` chain
  has no `else`, so the program falls through, prints nothing, touches no file
  and exits with status 0. -/
  | silentSuccess : CliOutcome
  /-- A subscript `sys.argv[1]` or `sys.argv[2]` is out of range: the program
  dies with an uncaught `IndexError` (a traceback on stderr, exit status 1). -/
  | argIndexError : CliOutcome
deriving DecidableEq

/-- The top-level control flow of `unpacker.py` on an argument vector
(`argv.head?` being the script name): evaluate `sys.argv[1]`, compare it
against `"unpack"` and `"pack"`, and in either branch evaluate `sys.argv[2]`
as the image path. -/
def dispatch (argv : List String) : CliOutcome :=
  match argv[1]? with
  | none => .argIndexError
  | some cmd =>
    if cmd = "unpack" then
      match argv[2]? with
      | none => .argIndexError
      | some src => .doUnpack src
    else if cmd = "pack" then
      match argv[2]? with
      | none => .argIndexError
      | some dest => .doPack dest
    else .silentSuccess

/-- Process exit status of each dispatch outcome: an uncaught Python exception
exits with status 1, everything else here exits with status 0. -/
def exitCode : CliOutcome → Nat
  | .argIndexError => 1
  | _ => 0

/-- Whether the dispatch outcome goes on to open any file. -/
def touchesFiles : CliOutcome → Bool
  | .doUnpack _ => true
  | .doPack _ => true
  | _ => false

/-- A directory whose `squashfs` part file is one byte larger than the
declared `squashfs` partition size. -/
def oversizeDir : String → Bytes :=
  fun _ => List.replicate (5505028 - 0x11AAD7 + 1) 1

/-! ### Evaluation lemmas: unfolding the two loops over the concrete table -/

/-- Running the `unpack` loop over the two-entry table writes the
`uimage_kernel` range and then the `squashfs` range, and prints the two
report lines in table order. -/
lemma unpackRun_eq (s : Bytes) (fs0 : String → Bytes) :
    unpackRun s fs0 =
      { fs := writeFile (writeFile fs0 "uimage_kernel" (readAt s 0x0 0x11AA97))
                "squashfs" (readAt s 0x11AAD7 (5505028 - 0x11AAD7))
        log := [("uimage_kernel", (readAt s 0x0 0x11AA97).length),
                ("squashfs", (readAt s 0x11AAD7 (5505028 - 0x11AAD7)).length)] } :=
  rfl

/-- Running the `pack` loop over `firmware_parts[1:]` processes exactly the
`squashfs` descriptor: its part file bytes, then the Python pad. -/
lemma packRun_eq (fs : String → Bytes) :
    packRun fs =
      { image := fs "squashfs" ++
          pythonPad ((5505028 - 0x11AAD7 : Int) - ((fs "squashfs").length : Int))
        log := [("squashfs", (fs "squashfs").length,
          (5505028 - 0x11AAD7 : Int) - ((fs "squashfs").length : Int))] } :=
  rfl

/-- After `unpack`, the file `uimage_kernel` holds the first descriptor's
range of the source image. -/
lemma unpackRun_fs_uimage (s : Bytes) (fs0 : String → Bytes) :
    (unpackRun s fs0).fs "uimage_kernel" = readAt s 0x0 0x11AA97 := by
  rw [unpackRun_eq]
  simp [writeFile]

/-- After `unpack`, the file `squashfs` holds the second descriptor's range of
the source image. -/
lemma unpackRun_fs_squashfs (s : Bytes) (fs0 : String → Bytes) :
    (unpackRun s fs0).fs "squashfs" = readAt s 0x11AAD7 (5505028 - 0x11AAD7) := by
  rw [unpackRun_eq]
  simp [writeFile]

/-- `unpack` leaves every file other than the two part files untouched. -/
lemma unpackRun_fs_other (s : Bytes) (fs0 : String → Bytes) (n : String)
    (h1 : n ≠ "uimage_kernel") (h2 : n ≠ "squashfs") :
    (unpackRun s fs0).fs n = fs0 n := by
  rw [unpackRun_eq]
  simp [writeFile, h1, h2]

/-- The `pack` output image depends only on the contents of the `squashfs`
part file. -/
lemma packRun_congr (f g : String → Bytes) (h : f "squashfs" = g "squashfs") :
    packRun f = packRun g := by
  rw [packRun_eq, packRun_eq, h]

/-- Two byte lists that agree pointwise below `n` have the same `n`-prefix. -/
lemma take_congr_of_get? (s t : Bytes) (n : Nat)
    (h : ∀ i, i < n → s.get? i = t.get? i) : s.take n = t.take n := by
  rw [List.ext_get?_iff]
  intro i
  by_cases hi : i < n
  · rw [List.get?_take hi, List.get?_take hi, h i hi]
  · have h1 : (s.take n).get? i = none := by
      rw [List.get?_eq_none, List.length_take]
      omega
    have h2 : (t.take n).get? i = none := by
      rw [List.get?_eq_none, List.length_take]
      omega
    rw [h1, h2]

/-- A read of the window `[off, off + sz)` depends only on the source bytes in
that window. -/
lemma readAt_congr (s t : Bytes) (off sz : Nat)
    (h : ∀ i, off ≤ i → i < off + sz → s.get? i = t.get? i) :
    readAt s off sz = readAt t off sz := by
  unfold readAt
  apply take_congr_of_get?
  intro i hi
  rw [List.get?_drop, List.get?_drop]
  exact h (off + i) (Nat.le_add_right off i) (by omega)

/-! ### Claim theorems -/

/-- C6: for every descriptor in table order, `unpack` seeks to the
descriptor's offset in the source image, reads up to `size` bytes from there,
writes those bytes verbatim to the file named after the descriptor regardless
of its previous contents, and reports the part name and the number of bytes
written. -/
theorem unpack_extraction_contract (source : Bytes) (fs0 : String → Bytes) :
    (unpackRun source fs0).fs "uimage_kernel" = (source.drop 0x0).take 0x11AA97
    ∧ (unpackRun source fs0).fs "squashfs" =
        (source.drop 0x11AAD7).take (5505028 - 0x11AAD7)
    ∧ (unpackRun source fs0).log =
        [("uimage_kernel", ((source.drop 0x0).take 0x11AA97).length),
         ("squashfs", ((source.drop 0x11AAD7).take (5505028 - 0x11AAD7)).length)] :=
  ⟨unpackRun_fs_uimage source fs0, unpackRun_fs_squashfs source fs0, rfl⟩

/-- C5: `pack` processes exactly the descriptors after the first one in table
order (the report lines name exactly `firmware_parts[1:]` in order), and the
first descriptor's part file is never read: two directories that agree on the
`squashfs` file give identical pack runs. -/
theorem pack_skips_first_in_table_order (f g : String → Bytes)
    (h : f "squashfs" = g "squashfs") :
    packRun f = packRun g
    ∧ (packRun f).log.map (fun e => e.1) =
        (firmware_parts.drop 1).map (fun pt => pt.name)
    ∧ (firmware_parts.drop 1).map (fun pt => pt.name) = ["squashfs"] :=
  ⟨packRun_congr f g h, rfl, rfl⟩

/-- C5 witness: two concrete directories differing on every file but
`squashfs` give identical pack runs, which process exactly `squashfs`. -/
theorem pack_skips_first_in_table_order_witness :
    ((fun n : String => if n = "squashfs" then ([1, 2] : Bytes) else [3])
        "squashfs" =
      (fun n : String => if n = "squashfs" then ([1, 2] : Bytes) else [9, 9])
        "squashfs")
    ∧ (packRun (fun n : String => if n = "squashfs" then ([1, 2] : Bytes) else [3]) =
        packRun (fun n : String => if n = "squashfs" then ([1, 2] : Bytes) else [9, 9])
      ∧ (packRun (fun n : String => if n = "squashfs" then ([1, 2] : Bytes) else [3])).log.map
          (fun e => e.1) = (firmware_parts.drop 1).map (fun pt => pt.name)
      ∧ (firmware_parts.drop 1).map (fun pt => pt.name) = ["squashfs"]) :=
  ⟨rfl, pack_skips_first_in_table_order _ _ rfl⟩

/-- C2: for a part file of length `L ≤ size` of its descriptor (the only
packed descriptor being `squashfs`), `pack` writes exactly the `L` content
bytes followed by exactly `size - L` zero bytes, so the bytes written for the
descriptor total exactly its declared size. -/
theorem pack_padding_law (fs : String → Bytes)
    (h : (fs "squashfs").length ≤ 5505028 - 0x11AAD7) :
    (packRun fs).image =
      fs "squashfs" ++
        List.replicate ((5505028 - 0x11AAD7) - (fs "squashfs").length) 0
    ∧ (packRun fs).image.length = 5505028 - 0x11AAD7 := by
  rw [packRun_eq]
  constructor
  · simp only [pythonPad]
    congr 1
    congr 1
    omega
  · simp only [pythonPad, List.length_append, List.length_replicate]
    omega

/-- C2 witness: a one-byte `squashfs` part file is written followed by
`size - 1` zero bytes, for a total of exactly the declared size. -/
theorem pack_padding_law_witness :
    ((fun _ : String => ([7] : Bytes)) "squashfs").length ≤ 5505028 - 0x11AAD7
    ∧ ((packRun (fun _ : String => ([7] : Bytes))).image =
        (fun _ : String => ([7] : Bytes)) "squashfs" ++
          List.replicate ((5505028 - 0x11AAD7) -
            ((fun _ : String => ([7] : Bytes)) "squashfs").length) 0
      ∧ (packRun (fun _ : String => ([7] : Bytes))).image.length =
          5505028 - 0x11AAD7) :=
  ⟨by norm_num, pack_padding_law (fun _ => [7]) (by norm_num)⟩

/-- C10: both operations are pure functions of their input file bytes:
`unpack` on a given source image writes the same part contents and prints the
same byte counts whatever the directory previously held, and `pack` on
byte-identical part files produces a byte-identical output image and report. -/
theorem operations_deterministic (s : Bytes) (fs1 fs2 g1 g2 : String → Bytes)
    (h : g1 "squashfs" = g2 "squashfs") :
    (unpackRun s fs1).fs "uimage_kernel" = (unpackRun s fs2).fs "uimage_kernel"
    ∧ (unpackRun s fs1).fs "squashfs" = (unpackRun s fs2).fs "squashfs"
    ∧ (unpackRun s fs1).log = (unpackRun s fs2).log
    ∧ packRun g1 = packRun g2 := by
  refine ⟨?_, ?_, ?_, packRun_congr g1 g2 h⟩
  · rw [unpackRun_fs_uimage, unpackRun_fs_uimage]
  · rw [unpackRun_fs_squashfs, unpackRun_fs_squashfs]
  · rw [unpackRun_eq, unpackRun_eq]

/-- C10 witness: concrete runs over two different prior directory states and
two directories agreeing on `squashfs`. -/
theorem operations_deterministic_witness :
    ((fun _ : String => ([] : Bytes)) "squashfs" =
      (fun _ : String => ([] : Bytes)) "squashfs")
    ∧ ((unpackRun [1] fun _ => []).fs "uimage_kernel" =
        (unpackRun [1] fun _ => [7]).fs "uimage_kernel"
      ∧ (unpackRun [1] fun _ => []).fs "squashfs" =
          (unpackRun [1] fun _ => [7]).fs "squashfs"
      ∧ (unpackRun [1] fun _ => []).log = (unpackRun [1] fun _ => [7]).log
      ∧ packRun (fun _ => []) = packRun (fun _ => [])) :=
  ⟨rfl, operations_deterministic [1] (fun _ => []) (fun _ => [7])
    (fun _ => []) (fun _ => []) rfl⟩

/-- C4 counterexample: on the 3-byte source image `[1, 2, 3]`, which is
shorter than `offset + size` for both descriptors, `unpack` completes and
silently writes a truncated `uimage_kernel` part and an empty `squashfs`
part, reporting the truncated byte counts. -/
theorem unpack_short_source_counterexample :
    (3 : Nat) < 0x0 + 0x11AA97
    ∧ (unpackRun [1, 2, 3] fun _ => []).fs "uimage_kernel" = [1, 2, 3]
    ∧ (unpackRun [1, 2, 3] fun _ => []).fs "squashfs" = []
    ∧ (unpackRun [1, 2, 3] fun _ => []).log =
        [("uimage_kernel", 3), ("squashfs", 0)] := by
  have h1 : readAt [1, 2, 3] 0x0 0x11AA97 = [1, 2, 3] := by
    unfold readAt
    rw [List.drop_zero, List.take_of_length_le (by norm_num)]
  have h2 : readAt [1, 2, 3] 0x11AAD7 (5505028 - 0x11AAD7) = [] := by
    unfold readAt
    rw [List.drop_eq_nil_of_le (by norm_num), List.take_nil]
  refine ⟨by norm_num, ?_, ?_, ?_⟩
  · rw [unpackRun_fs_uimage, h1]
  · rw [unpackRun_fs_squashfs, h2]
  · rw [unpackRun_eq]
    simp [h1, h2]

/-- C4 amended: `unpack` performs no validation on a short source image: on
any source shorter than `offset + size` for the `squashfs` descriptor, the
run completes silently, the `squashfs` part file written is strictly shorter
than its declared size (only the bytes that exist are written) and the
truncated byte counts are reported; when the source is also shorter than the
first descriptor's `offset + size`, the `uimage_kernel` part is truncated
too. -/
theorem unpack_short_source_silent (source : Bytes) (fs0 : String → Bytes)
    (h : source.length < 0x11AAD7 + (5505028 - 0x11AAD7)) :
    ((unpackRun source fs0).fs "squashfs").length < 5505028 - 0x11AAD7
    ∧ (unpackRun source fs0).fs "squashfs" =
        (source.drop 0x11AAD7).take (5505028 - 0x11AAD7)
    ∧ (unpackRun source fs0).log =
        [("uimage_kernel", ((source.drop 0x0).take 0x11AA97).length),
         ("squashfs", ((source.drop 0x11AAD7).take (5505028 - 0x11AAD7)).length)]
    ∧ (source.length < 0x0 + 0x11AA97 →
        ((unpackRun source fs0).fs "uimage_kernel").length < 0x11AA97) := by
  refine ⟨?_, unpackRun_fs_squashfs source fs0, rfl, ?_⟩
  · rw [unpackRun_fs_squashfs]
    simp only [readAt, List.length_take, List.length_drop]
    omega
  · intro hshort
    rw [unpackRun_fs_uimage]
    simp only [readAt, List.length_take, List.length_drop]
    omega

/-- C4 witness: the amended statement instantiated at the concrete short
source image `[4, 5]`. -/
theorem unpack_short_source_silent_witness :
    ([4, 5] : Bytes).length < 0x11AAD7 + (5505028 - 0x11AAD7)
    ∧ (((unpackRun [4, 5] fun _ => [9]).fs "squashfs").length <
          5505028 - 0x11AAD7
      ∧ (unpackRun [4, 5] fun _ => [9]).fs "squashfs" =
          (([4, 5] : Bytes).drop 0x11AAD7).take (5505028 - 0x11AAD7)
      ∧ (unpackRun [4, 5] fun _ => [9]).log =
          [("uimage_kernel", ((([4, 5] : Bytes).drop 0x0).take 0x11AA97).length),
           ("squashfs",
             ((([4, 5] : Bytes).drop 0x11AAD7).take (5505028 - 0x11AAD7)).length)]
      ∧ (([4, 5] : Bytes).length < 0x0 + 0x11AA97 →
          ((unpackRun [4, 5] fun _ => [9]).fs "uimage_kernel").length <
            0x11AA97)) :=
  ⟨by norm_num, unpack_short_source_silent [4, 5] (fun _ => [9]) (by norm_num)⟩

/-- C3 counterexample: with a `squashfs` part file one byte larger than the
declared partition size, `pack` completes: it writes the full oversize
content (no truncation, no error), appends no padding (Python's
negative-length pad is empty), and the bytes written exceed the declared
size. -/
theorem pack_oversize_counterexample :
    (oversizeDir "squashfs").length = 5505028 - 0x11AAD7 + 1
    ∧ (packRun oversizeDir).image = oversizeDir "squashfs"
    ∧ 5505028 - 0x11AAD7 < (packRun oversizeDir).image.length := by
  have hlen : (oversizeDir "squashfs").length = 5505028 - 0x11AAD7 + 1 := by
    simp only [oversizeDir, List.length_replicate]
  have hz : ((5505028 - 0x11AAD7 : Int) -
      ((oversizeDir "squashfs").length : Int)).toNat = 0 := by
    omega
  refine ⟨hlen, ?_, ?_⟩
  · rw [packRun_eq]
    rw [pythonPad, hz]
    simp
  · rw [packRun_eq]
    simp only [List.length_append, pythonPad, List.length_replicate]
    omega

/-- C3 amended: `pack` does not fail on an oversize part file: whenever the
`squashfs` part file exceeds its declared size, the full content is written
verbatim (neither truncated nor rejected), the computed padding is negative
and no pad byte is emitted, so the output exceeds the declared size. -/
theorem pack_oversize_writes_content (fs : String → Bytes)
    (h : 5505028 - 0x11AAD7 < (fs "squashfs").length) :
    (packRun fs).image = fs "squashfs"
    ∧ (5505028 - 0x11AAD7 : Int) - ((fs "squashfs").length : Int) < 0
    ∧ (packRun fs).log = [("squashfs", (fs "squashfs").length,
        (5505028 - 0x11AAD7 : Int) - ((fs "squashfs").length : Int))] := by
  have hz : ((5505028 - 0x11AAD7 : Int) -
      ((fs "squashfs").length : Int)).toNat = 0 := by
    omega
  refine ⟨?_, by omega, ?_⟩
  · rw [packRun_eq]
    rw [pythonPad, hz]
    simp
  · rw [packRun_eq]

/-- C3 witness: the amended statement instantiated at the concrete oversize
directory. -/
theorem pack_oversize_writes_content_witness :
    5505028 - 0x11AAD7 < (oversizeDir "squashfs").length
    ∧ ((packRun oversizeDir).image = oversizeDir "squashfs"
      ∧ (5505028 - 0x11AAD7 : Int) - ((oversizeDir "squashfs").length : Int) < 0
      ∧ (packRun oversizeDir).log = [("squashfs", (oversizeDir "squashfs").length,
          (5505028 - 0x11AAD7 : Int) - ((oversizeDir "squashfs").length : Int))]) :=
  ⟨by simp only [oversizeDir, List.length_replicate]; omega,
   pack_oversize_writes_content oversizeDir
     (by simp only [oversizeDir, List.length_replicate]; omega)⟩

/-- C1: for a source image built by concatenating first-descriptor bytes,
second-descriptor bytes and zero padding (at least the 0x40 bytes needed to
cover the gap before the second descriptor's offset), `unpack` followed by
`pack` on the unpacked `squashfs` part reproduces byte-for-byte the second
descriptor's region of the original image, with padding length 0 reported. -/
theorem unpack_pack_roundtrip (A B : Bytes) (p : Nat) (fs0 : String → Bytes)
    (hA : A.length = 0x11AA97) (hB : B.length = 5505028 - 0x11AAD7)
    (hp : 0x40 ≤ p) :
    (packRun (unpackRun (A ++ B ++ List.replicate p 0) fs0).fs).image =
      ((A ++ B ++ List.replicate p 0).drop 0x11AAD7).take (5505028 - 0x11AAD7)
    ∧ (packRun (unpackRun (A ++ B ++ List.replicate p 0) fs0).fs).log =
        [("squashfs", 5505028 - 0x11AAD7, (0 : Int))] := by
  have hfs := unpackRun_fs_squashfs (A ++ B ++ List.replicate p 0) fs0
  have hslen : (A ++ B ++ List.replicate p 0).length
      = 0x11AA97 + (5505028 - 0x11AAD7) + p := by
    simp only [List.length_append, List.length_replicate, hA, hB]
  have hlen :
      (readAt (A ++ B ++ List.replicate p 0) 0x11AAD7 (5505028 - 0x11AAD7)).length
      = 5505028 - 0x11AAD7 := by
    simp only [readAt, List.length_take, List.length_drop, hslen]
    omega
  have hz : ((5505028 - 0x11AAD7 : Int) -
      (((unpackRun (A ++ B ++ List.replicate p 0) fs0).fs "squashfs").length :
        Int)).toNat = 0 := by
    rw [hfs]
    omega
  constructor
  · rw [packRun_eq, hfs, hlen]
    norm_num [pythonPad, readAt]
  · rw [packRun_eq, hfs, hlen]
    norm_num

/-- C1 witness: the round trip instantiated at a concrete all-zero kernel
part, all-zero squashfs part and the exact 0x40 bytes of padding. -/
theorem unpack_pack_roundtrip_witness :
    (List.replicate 0x11AA97 (0 : Nat)).length = 0x11AA97
    ∧ (List.replicate (5505028 - 0x11AAD7) (0 : Nat)).length = 5505028 - 0x11AAD7
    ∧ (0x40 : Nat) ≤ 0x40
    ∧ ((packRun (unpackRun (List.replicate 0x11AA97 0 ++
            List.replicate (5505028 - 0x11AAD7) 0 ++ List.replicate 0x40 0)
          fun _ => []).fs).image =
        ((List.replicate 0x11AA97 0 ++ List.replicate (5505028 - 0x11AAD7) 0 ++
            List.replicate 0x40 0).drop 0x11AAD7).take (5505028 - 0x11AAD7)
      ∧ (packRun (unpackRun (List.replicate 0x11AA97 0 ++
            List.replicate (5505028 - 0x11AAD7) 0 ++ List.replicate 0x40 0)
          fun _ => []).fs).log =
          [("squashfs", 5505028 - 0x11AAD7, (0 : Int))]) :=
  ⟨List.length_replicate 0x11AA97 0, List.length_replicate (5505028 - 0x11AAD7) 0,
   Nat.le_refl 0x40,
   unpack_pack_roundtrip (List.replicate 0x11AA97 0)
     (List.replicate (5505028 - 0x11AAD7) 0) 0x40 (fun _ => [])
     (List.length_replicate 0x11AA97 0)
     (List.length_replicate (5505028 - 0x11AAD7) 0) (Nat.le_refl 0x40)⟩

/-- C7 counterexample: on the unknown subcommand `frobnicate` the program
falls off the `if`/`elif` chain: it prints no error, performs no file
operation, and exits with status 0 — not a non-zero status with a clear
message. -/
theorem dispatch_unknown_subcommand_counterexample :
    dispatch ["unpacker.py", "frobnicate"] = CliOutcome.silentSuccess
    ∧ exitCode (dispatch ["unpacker.py", "frobnicate"]) = 0
    ∧ touchesFiles (dispatch ["unpacker.py", "frobnicate"]) = false := by
  decide

/-- C7 amended: a missing subcommand argument dies with an uncaught
`IndexError` (traceback, exit status 1), and so does a missing image path
argument after `unpack` or `pack`, while a present but unknown subcommand
makes the program exit silently with status 0, performing no file operation;
no case prints a purpose-written usage message. -/
theorem dispatch_usage_behavior (argv : List String) :
    (argv[1]? = none →
      dispatch argv = CliOutcome.argIndexError ∧ exitCode (dispatch argv) = 1)
    ∧ (∀ c, argv[1]? = some c → c ≠ "unpack" → c ≠ "pack" →
      dispatch argv = CliOutcome.silentSuccess
      ∧ exitCode (dispatch argv) = 0
      ∧ touchesFiles (dispatch argv) = false)
    ∧ (∀ c, argv[1]? = some c → (c = "unpack" ∨ c = "pack") → argv[2]? = none →
      dispatch argv = CliOutcome.argIndexError
      ∧ exitCode (dispatch argv) = 1) := by
  refine ⟨?_, ?_, ?_⟩
  · intro h
    simp [dispatch, h, exitCode]
  · intro c hc h1 h2
    simp [dispatch, hc, h1, h2, exitCode, touchesFiles]
  · intro c hc hcmd hpath
    rcases hcmd with hcmd | hcmd
    · subst hcmd
      simp [dispatch, hc, hpath, exitCode]
    · subst hcmd
      simp [dispatch, hc, hpath, exitCode]

/-- C7 witness: the amended statement instantiated at a missing subcommand,
at the unknown subcommand `bogus`, and at `unpack` and `pack` with a missing
image path argument. -/
theorem dispatch_usage_behavior_witness :
    (dispatch ["unpacker.py"] = CliOutcome.argIndexError
      ∧ exitCode (dispatch ["unpacker.py"]) = 1)
    ∧ (dispatch ["unpacker.py", "bogus"] = CliOutcome.silentSuccess
      ∧ exitCode (dispatch ["unpacker.py", "bogus"]) = 0
      ∧ touchesFiles (dispatch ["unpacker.py", "bogus"]) = false)
    ∧ (dispatch ["unpacker.py", "unpack"] = CliOutcome.argIndexError
      ∧ exitCode (dispatch ["unpacker.py", "unpack"]) = 1)
    ∧ (dispatch ["unpacker.py", "pack"] = CliOutcome.argIndexError
      ∧ exitCode (dispatch ["unpacker.py", "pack"]) = 1) :=
  ⟨(dispatch_usage_behavior ["unpacker.py"]).1 rfl,
   (dispatch_usage_behavior ["unpacker.py", "bogus"]).2.1 "bogus" rfl
     (by decide) (by decide),
   (dispatch_usage_behavior ["unpacker.py", "unpack"]).2.2 "unpack" rfl
     (Or.inl rfl) rfl,
   (dispatch_usage_behavior ["unpacker.py", "pack"]).2.2 "pack" rfl
     (Or.inr rfl) rfl⟩

/-- C8: `unpack` creates or overwrites only the per-descriptor output files
(`uimage_kernel` and `squashfs`, the names of the table entries); every other
file — in particular a source image stored under any other name, the source
being opened read-only — is left unchanged. -/
theorem unpack_source_read_only (source : Bytes) (fs0 : String → Bytes)
    (n : String) (h1 : n ≠ "uimage_kernel") (h2 : n ≠ "squashfs") :
    firmware_parts.map (fun pt => pt.name) = ["uimage_kernel", "squashfs"]
    ∧ (unpackRun source fs0).fs n = fs0 n :=
  ⟨rfl, unpackRun_fs_other source fs0 n h1 h2⟩

/-- C8 witness: a file named `firmware.bin` is untouched by a concrete
unpack run. -/
theorem unpack_source_read_only_witness :
    ("firmware.bin" ≠ "uimage_kernel")
    ∧ ("firmware.bin" ≠ "squashfs")
    ∧ (firmware_parts.map (fun pt => pt.name) = ["uimage_kernel", "squashfs"]
      ∧ (unpackRun [1, 2] fun _ => [42]).fs "firmware.bin" = [42]) :=
  ⟨by decide, by decide,
   unpack_source_read_only [1, 2] (fun _ => [42]) "firmware.bin"
     (by decide) (by decide)⟩

/-- C9: the table ranges are `[0x0, 0x11AA97)` and `[0x11AAD7, 5505028)`,
disjoint but separated by a 0x40-byte gap, and the whole unpack run —
every file written and every report line — is unchanged when the source
bytes in the gap `[0x11AA97, 0x11AAD7)` change: the gap is written to no
output file and cannot be reconstructed from the parts. -/
theorem unpack_gap_unread (s t : Bytes) (fs0 : String → Bytes)
    (hlow : ∀ i, i < 0x11AA97 → s.get? i = t.get? i)
    (hhigh : ∀ i, 0x11AAD7 ≤ i → s.get? i = t.get? i) :
    firmware_parts.map (fun pt => (pt.offset, pt.offset + pt.size)) =
      [(0x0, 0x11AA97), (0x11AAD7, 5505028)]
    ∧ 0x11AA97 + 0x40 = 0x11AAD7
    ∧ unpackRun s fs0 = unpackRun t fs0 := by
  have e1 : readAt s 0x0 0x11AA97 = readAt t 0x0 0x11AA97 := by
    apply readAt_congr
    intro i _ hi2
    exact hlow i (by omega)
  have e2 : readAt s 0x11AAD7 (5505028 - 0x11AAD7) =
      readAt t 0x11AAD7 (5505028 - 0x11AAD7) := by
    apply readAt_congr
    intro i hi1 _
    exact hhigh i hi1
  refine ⟨by norm_num [firmware_parts], by norm_num, ?_⟩
  rw [unpackRun_eq, unpackRun_eq, e1, e2]

/-- C9 witness: the statement instantiated at a concrete source image. -/
theorem unpack_gap_unread_witness :
    (∀ i, i < 0x11AA97 → ([9] : Bytes).get? i = ([9] : Bytes).get? i)
    ∧ (∀ i, 0x11AAD7 ≤ i → ([9] : Bytes).get? i = ([9] : Bytes).get? i)
    ∧ (firmware_parts.map (fun pt => (pt.offset, pt.offset + pt.size)) =
        [(0x0, 0x11AA97), (0x11AAD7, 5505028)]
      ∧ 0x11AA97 + 0x40 = 0x11AAD7
      ∧ unpackRun [9] (fun _ => []) = unpackRun [9] (fun _ => [])) :=
  ⟨fun _ _ => rfl, fun _ _ => rfl,
   unpack_gap_unread [9] [9] (fun _ => []) (fun _ _ => rfl) (fun _ _ => rfl)⟩
